import Mathlib

/-!
Verification of the kanumi image filter-and-match engine
(`src/main.rs`, `process_only_images` and its helpers) against its
natural-language specification.

The core pipeline (`is_image_file`, `process_only_images`) is embedded
directly from `src/main.rs`.  The helper modules `utils`, `cli`,
`config` and `image_meta` are declared in `main.rs` but their sources
are not part of the repository snapshot; the functions the pipeline
calls from them (`utils::image_matches_dims`,
`utils::image_score_matches`, `utils::load_image_metas`) are modelled
from the specification, as marked in their doc comments.  External
collaborators (directory walking, dimension probing, metadata loading)
are passed in as explicit function-valued parameters.
-/

namespace Kanumi

/-- An inclusive bound pair with optional minimum and maximum
(spec §3 "Range"); mirrors the `width_range` / `height_range`
values resolved in `process_only_images`. -/
structure NumRange where
  min : Option Nat
  max : Option Nat
deriving Repr, DecidableEq

/-- Comparison operator of a score filter (spec §3 "ScoreFilter":
one of <, <=, =, >=, >). -/
inductive ScoreOp
  | lt
  | le
  | eq
  | ge
  | gt
deriving Repr, DecidableEq

/-- A score-filter expression: operator plus threshold (spec §3). -/
structure ScoreFilter where
  op : ScoreOp
  threshold : Int
deriving Repr, DecidableEq

/-- A metadata record: a path and a numeric score (spec §3
"ImageMeta"); corresponds to the records `utils::load_image_metas`
returns and `process_only_images` consumes via `meta.path`. -/
structure ImageMeta where
  path : String
  score : Int
deriving Repr, DecidableEq

/-- One entry produced by the directory walk: the full path
(`entry.path()`) and the final path segment as an optional string
(`entry.file_name().to_str()`, which is `none` when the name is not
valid Unicode or the entry has no file-name component). -/
structure WalkEntry where
  path : String
  fileName : Option String
deriving Repr, DecidableEq

/-- The external collaborators `process_only_images` interacts with:
directory existence (`Path::exists`), the directory walk (`WalkDir`,
already flattened to the entries that survived `filter_map(Result::ok)`),
the dimension probe used by `utils::image_matches_dims`, and the
metadata loader `utils::load_image_metas` keyed by metadata path. -/
structure FileSystem where
  dirExists : String → Bool
  walk : String → List WalkEntry
  probe : String → Option (Nat × Nat)
  loadMetas : String → Except String (List ImageMeta)

/-- The CLI arguments `process_only_images` reads (fields of `Cli`
used in `main.rs`). -/
structure Cli where
  directory : Option String
  metadata_path : Option String
  score_filters : Option (List ScoreFilter)
  width_range : Option NumRange
  height_range : Option NumRange
deriving Repr

/-- The configuration values `process_only_images` falls back to
(fields of `Configuration` used in `main.rs`). -/
structure Configuration where
  root_images_dir : Option String
  metadata_path : Option String
  score_filters : Option (List ScoreFilter)
  width_range : Option NumRange
  height_range : Option NumRange
deriving Repr

/-- The fatal error outcomes of `process_only_images`
(spec §7 error taxonomy; the Rust code uses `anyhow` messages). -/
inductive PipelineError
  | missingDirectory
  | directoryNotFound (dir : String)
  | missingMetadataSource
  | metadataLoadFailed (msg : String)
deriving Repr, DecidableEq

/-- Rust's `str::to_lowercase`, embedded as character-wise
lowercasing of the string's character list. -/
def strToLower (s : String) : String := ⟨s.data.map Char.toLower⟩

/-- Rust's `str::ends_with`, embedded as a suffix test on the
string's character list. -/
def strEndsWith (s suff : String) : Bool := suff.data.isSuffixOf s.data

/-- Embeds `is_image_file` from `src/main.rs` lines 54-64: lowercase
the file name (when one is available as a string) and test the five
supported extension suffixes; `false` when no name is available. -/
def is_image_file (file_name : Option String) : Bool :=
  match file_name with
  | some name =>
      strEndsWith (strToLower name) ".gif"
        || strEndsWith (strToLower name) ".jpeg"
        || strEndsWith (strToLower name) ".jpg"
        || strEndsWith (strToLower name) ".png"
        || strEndsWith (strToLower name) ".webp"
  | none => false

/-- Modelled from the spec: `in_range` (spec §3 "Range") — the source
of the `utils` module is not in the snapshot.  A value satisfies a
range iff (min absent or value ≥ min) and (max absent or value ≤ max). -/
def in_range (v : Nat) (r : NumRange) : Bool :=
  (match r.min with
    | none => true
    | some lo => decide (lo ≤ v))
    && (match r.max with
    | none => true
    | some hi => decide (v ≤ hi))

/-- Modelled from the spec: `utils::image_matches_dims` (spec §4.2) —
the source of the `utils` module is not in the snapshot.  When both
ranges are absent the result is `true`; otherwise the image's
dimensions are probed, a failed probe yields `false` (fail-closed),
and a successful probe requires each present range to be satisfied by
the corresponding dimension. -/
def image_matches_dims (probe : String → Option (Nat × Nat)) (img : String)
    (width_range height_range : Option NumRange) : Bool :=
  if width_range.isNone && height_range.isNone then
    true
  else
    match probe img with
    | none => false
    | some (w, h) =>
        (match width_range with
          | none => true
          | some r => in_range w r)
          && (match height_range with
          | none => true
          | some r => in_range h r)

/-- Modelled from the spec: `utils::image_score_matches` (spec §4.4) —
the source of the `utils` module is not in the snapshot.  Numeric
comparison of the record's score against the filter threshold using
the filter operator. -/
def image_score_matches (meta : ImageMeta) (f : ScoreFilter) : Bool :=
  match f.op with
  | .lt => decide (meta.score < f.threshold)
  | .le => decide (meta.score ≤ f.threshold)
  | .eq => decide (meta.score = f.threshold)
  | .ge => decide (meta.score ≥ f.threshold)
  | .gt => decide (meta.score > f.threshold)

/-- The extension-filtered candidate list of `process_only_images`
(`main.rs` lines 119-124): walk the directory, keep the entries whose
file name passes `is_image_file`, and take their paths. -/
def candidate_images (fsys : FileSystem) (dir_path : String) : List String :=
  ((fsys.walk dir_path).filter (fun node => is_image_file node.fileName)).map
    (fun entry => entry.path)

/-- The dimension-filtering step of `process_only_images`
(`main.rs` lines 126-129): the `retain` call runs only when at least
one of the two ranges is present. -/
def dim_filtered_images (fsys : FileSystem) (dir_path : String)
    (width_range height_range : Option NumRange) : List String :=
  let images := candidate_images fsys dir_path
  if width_range.isSome || height_range.isSome then
    images.filter (fun img => image_matches_dims fsys.probe img width_range height_range)
  else
    images

/-- The successive score-filter passes of `process_only_images`
(`main.rs` lines 153-155): each filter `retain`s the metadata records
matching it, narrowing the record set left by the previous filter. -/
def applyScoreFilters (metas : List ImageMeta) (filters : List ScoreFilter) :
    List ImageMeta :=
  filters.foldl (fun ms f => ms.filter (fun meta => image_score_matches meta f)) metas

/-- Embeds `process_only_images` from `src/main.rs` lines 93-165.
Resolution of each input (argument first, configuration as fallback)
uses `Option.or` exactly as the `.clone().or(...)` calls do; the
returned list is the sequence of paths the printing loop at lines
160-162 would emit, and an `Except.error` result models the early
`return Err(...)` paths, before any printing. -/
def process_only_images (fsys : FileSystem) (args : Cli) (config : Configuration) :
    Except PipelineError (List String) :=
  match args.directory.or config.root_images_dir with
  | none => .error .missingDirectory
  | some dir_path =>
    if fsys.dirExists dir_path then
      let metadata_path := args.metadata_path.or config.metadata_path
      let score_filters := args.score_filters.or config.score_filters
      let width_range := args.width_range.or config.width_range
      let height_range := args.height_range.or config.height_range
      let images := dim_filtered_images fsys dir_path width_range height_range
      match score_filters with
      | none => .ok images
      | some score_filters =>
        match metadata_path with
        | none => .error .missingMetadataSource
        | some mp =>
          match fsys.loadMetas mp with
          | .error e => .error (.metadataLoadFailed e)
          | .ok metas =>
            let metas := applyScoreFilters metas score_filters
            .ok (images.filter (fun img => metas.any (fun meta => meta.path == img)))
    else
      .error (.directoryNotFound dir_path)

/-- The five supported image extensions, as suffix strings
(spec §4.1 fixed set). -/
def supportedExtensions : List String := [".gif", ".jpeg", ".jpg", ".png", ".webp"]

/-- From the spec's words (§3 "last-loaded wins"): the record for a
path under last-wins duplicate resolution is the last record in load
order whose path equals the query. -/
def lastMetaFor (metas : List ImageMeta) (p : String) : Option ImageMeta :=
  (metas.filter (fun meta => meta.path == p)).getLast?


theorem applyScoreFilters_nil (metas : List ImageMeta) :
    applyScoreFilters metas [] = metas := rfl

theorem applyScoreFilters_cons (metas : List ImageMeta) (f : ScoreFilter)
    (fs : List ScoreFilter) :
    applyScoreFilters metas (f :: fs)
      = applyScoreFilters (metas.filter (fun meta => image_score_matches meta f)) fs := rfl

theorem applyScoreFilters_eq_filter (fs : List ScoreFilter) (metas : List ImageMeta) :
    applyScoreFilters metas fs
      = metas.filter (fun meta => fs.all (fun f => image_score_matches meta f)) := by
  induction fs generalizing metas with
  | nil => simp [applyScoreFilters_nil]
  | cons f fs ih =>
    rw [applyScoreFilters_cons, ih, List.filter_filter]
    apply List.filter_congr
    intro meta _
    simp [List.all_cons, Bool.and_comm]

theorem mem_applyScoreFilters (meta : ImageMeta) (metas : List ImageMeta)
    (fs : List ScoreFilter) :
    meta ∈ applyScoreFilters metas fs ↔
      meta ∈ metas ∧ ∀ f ∈ fs, image_score_matches meta f = true := by
  rw [applyScoreFilters_eq_filter, List.mem_filter]
  simp [List.all_eq_true]

theorem process_only_images_eq_match (fsys : FileSystem) (args : Cli)
    (config : Configuration) (dir : String)
    (hd : args.directory.or config.root_images_dir = some dir)
    (hex : fsys.dirExists dir = true) :
    process_only_images fsys args config =
      (match args.score_filters.or config.score_filters with
        | none =>
            .ok (dim_filtered_images fsys dir (args.width_range.or config.width_range)
              (args.height_range.or config.height_range))
        | some sf =>
          match args.metadata_path.or config.metadata_path with
          | none => .error .missingMetadataSource
          | some mp =>
            match fsys.loadMetas mp with
            | .error e => .error (.metadataLoadFailed e)
            | .ok metas =>
                .ok ((dim_filtered_images fsys dir (args.width_range.or config.width_range)
                  (args.height_range.or config.height_range)).filter
                  (fun img => (applyScoreFilters metas sf).any
                    (fun meta => meta.path == img)))) := by
  unfold process_only_images
  rw [hd]
  simp only [hex, if_true]


/-- C3: `is_image_file` returns `true` exactly when the final path
segment, lowercased, ends with one of ".gif", ".jpeg", ".jpg", ".png",
".webp", and returns `false` for any other suffix, for no suffix, and
for paths with no file-name component. -/
theorem is_image_file_some (name : String) :
    is_image_file (some name)
      = (strEndsWith (strToLower name) ".gif"
        || strEndsWith (strToLower name) ".jpeg"
        || strEndsWith (strToLower name) ".jpg"
        || strEndsWith (strToLower name) ".png"
        || strEndsWith (strToLower name) ".webp") := rfl

theorem is_image_file_iff_supported_suffix (fn : Option String) :
    is_image_file fn = true ↔
      ∃ name, fn = some name ∧ ∃ ext ∈ supportedExtensions,
        strEndsWith (strToLower name) ext = true := by
  cases fn with
  | none => simp [is_image_file]
  | some name =>
    constructor
    · intro h
      refine ⟨name, rfl, ?_⟩
      rw [is_image_file_some] at h
      simp only [Bool.or_eq_true] at h
      rcases h with (((h | h) | h) | h) | h
      · exact ⟨".gif", by simp [supportedExtensions], h⟩
      · exact ⟨".jpeg", by simp [supportedExtensions], h⟩
      · exact ⟨".jpg", by simp [supportedExtensions], h⟩
      · exact ⟨".png", by simp [supportedExtensions], h⟩
      · exact ⟨".webp", by simp [supportedExtensions], h⟩
    · rintro ⟨name', hname, ext, hmem, hsuf⟩
      rw [Option.some_inj] at hname
      subst hname
      simp only [supportedExtensions, List.mem_cons, List.not_mem_nil, or_false] at hmem
      rw [is_image_file_some]
      rcases hmem with rfl | rfl | rfl | rfl | rfl <;> simp [hsuf]

/-- C5: one score-filter pass is idempotent, and applying several
score filters successively keeps exactly the records satisfying the
conjunction of all the filters. -/
theorem score_filtering_idempotent_and_conjunctive (metas : List ImageMeta)
    (f : ScoreFilter) (fs : List ScoreFilter) :
    applyScoreFilters (applyScoreFilters metas [f]) [f] = applyScoreFilters metas [f]
    ∧ applyScoreFilters metas fs
        = metas.filter (fun meta => fs.all (fun g => image_score_matches meta g)) := by
  refine ⟨?_, applyScoreFilters_eq_filter fs metas⟩
  simp [applyScoreFilters, List.filter_filter]

/-- C7: a value satisfies a range iff (min is absent or value ≥ min)
and (max is absent or value ≤ max); a range with both bounds absent
accepts every value. -/
theorem in_range_iff_bounds (v : Nat) (r : NumRange) :
    (in_range v r = true ↔
      ((∀ lo, r.min = some lo → lo ≤ v) ∧ (∀ hi, r.max = some hi → v ≤ hi)))
    ∧ in_range v ⟨none, none⟩ = true := by
  obtain ⟨mn, mx⟩ := r
  refine ⟨?_, rfl⟩
  cases mn <;> cases mx <;> simp [in_range]


theorem dim_filtered_images_eq_filter (fsys : FileSystem) (dir : String)
    (wr hr : Option NumRange) :
    dim_filtered_images fsys dir wr hr
      = (candidate_images fsys dir).filter
          (fun img => if wr.isSome || hr.isSome then
            image_matches_dims fsys.probe img wr hr
          else true) := by
  unfold dim_filtered_images
  by_cases h : wr.isSome || hr.isSome
  · simp [h]
  · simp [h]

theorem process_ok_eq_candidate_filter (fsys : FileSystem) (args : Cli)
    (config : Configuration) (dir : String) (out : List String)
    (hd : args.directory.or config.root_images_dir = some dir)
    (hout : process_only_images fsys args config = .ok out) :
    out = (candidate_images fsys dir).filter (fun img =>
      ((if (args.width_range.or config.width_range).isSome
            || (args.height_range.or config.height_range).isSome then
          image_matches_dims fsys.probe img (args.width_range.or config.width_range)
            (args.height_range.or config.height_range)
        else true)
        && (match args.score_filters.or config.score_filters with
            | none => true
            | some sf =>
              match args.metadata_path.or config.metadata_path with
              | none => false
              | some mp =>
                match fsys.loadMetas mp with
                | .error _ => false
                | .ok metas =>
                    (applyScoreFilters metas sf).any (fun meta => meta.path == img)))) := by
  by_cases hex : fsys.dirExists dir
  · rw [process_only_images_eq_match fsys args config dir hd hex] at hout
    cases hsf : args.score_filters.or config.score_filters with
    | none =>
      simp only [hsf, Except.ok.injEq] at hout
      subst hout
      simp only [hsf, Bool.and_true]
      exact dim_filtered_images_eq_filter fsys dir _ _
    | some sf =>
      simp only [hsf] at hout
      cases hmp : args.metadata_path.or config.metadata_path with
      | none => simp [hmp] at hout
      | some mp =>
        simp only [hmp] at hout
        cases hlm : fsys.loadMetas mp with
        | error e => simp [hlm] at hout
        | ok metas =>
          simp only [hlm, Except.ok.injEq] at hout
          subst hout
          simp only [hsf, hmp, hlm]
          rw [dim_filtered_images_eq_filter, List.filter_filter]
          apply List.filter_congr
          intro img _
          exact Bool.and_comm _ _
  · unfold process_only_images at hout
    rw [hd] at hout
    simp [hex] at hout

/-- C1: when score filters are resolved (from argument or config) but
no metadata path is resolved from either source, `process_only_images`
fails with an error before emitting any output; when the root
directory itself resolves and exists, that error is the
missing-metadata-source error. -/
theorem score_filters_require_metadata_source (fsys : FileSystem) (args : Cli)
    (config : Configuration) (sf : List ScoreFilter)
    (hs : args.score_filters.or config.score_filters = some sf)
    (hm : args.metadata_path.or config.metadata_path = none) :
    (∃ e, process_only_images fsys args config = .error e)
    ∧ (∀ dir, args.directory.or config.root_images_dir = some dir →
        fsys.dirExists dir = true →
        process_only_images fsys args config = .error .missingMetadataSource) := by
  have key : ∀ dir, args.directory.or config.root_images_dir = some dir →
      fsys.dirExists dir = true →
      process_only_images fsys args config = .error .missingMetadataSource := by
    intro dir hd hex
    rw [process_only_images_eq_match fsys args config dir hd hex, hs, hm]
  refine ⟨?_, key⟩
  cases hd : args.directory.or config.root_images_dir with
  | none =>
    refine ⟨.missingDirectory, ?_⟩
    unfold process_only_images
    rw [hd]
  | some dir =>
    by_cases hex : fsys.dirExists dir
    · exact ⟨.missingMetadataSource, key dir hd hex⟩
    · refine ⟨.directoryNotFound dir, ?_⟩
      unfold process_only_images
      rw [hd]
      simp [hex]

/-- C2: with score filtering active, every path in the emitted output
has a matching record among the loaded metadata; an image without a
metadata record never appears in score-filtered output. -/
theorem score_filtered_output_has_metadata (fsys : FileSystem) (args : Cli)
    (config : Configuration) (sf : List ScoreFilter) (mp : String)
    (metas : List ImageMeta) (out : List String) (img : String)
    (hs : args.score_filters.or config.score_filters = some sf)
    (hm : args.metadata_path.or config.metadata_path = some mp)
    (hl : fsys.loadMetas mp = .ok metas)
    (hout : process_only_images fsys args config = .ok out)
    (himg : img ∈ out) :
    ∃ meta ∈ metas, meta.path = img := by
  cases hd : args.directory.or config.root_images_dir with
  | none =>
    unfold process_only_images at hout
    rw [hd] at hout
    exact absurd hout (by simp)
  | some dir =>
    have hshape := process_ok_eq_candidate_filter fsys args config dir out hd hout
    subst hshape
    rw [List.mem_filter] at himg
    obtain ⟨-, hpred⟩ := himg
    simp only [hs, hm, hl] at hpred
    rw [Bool.and_eq_true] at hpred
    obtain ⟨-, hany⟩ := hpred
    rw [List.any_eq_true] at hany
    obtain ⟨meta, hmem, hbeq⟩ := hany
    obtain ⟨hmem', -⟩ := (mem_applyScoreFilters meta metas sf).mp hmem
    exact ⟨meta, hmem', eq_of_beq hbeq⟩


/-- C6: the emitted output is exactly the enumeration-produced
candidate list with the non-surviving elements removed — a single
order-preserving filter pass, no re-sorting. -/
theorem output_in_enumeration_order (fsys : FileSystem) (args : Cli)
    (config : Configuration) (dir : String) (out : List String)
    (hd : args.directory.or config.root_images_dir = some dir)
    (hout : process_only_images fsys args config = .ok out) :
    out = (candidate_images fsys dir).filter (fun img =>
      ((if (args.width_range.or config.width_range).isSome
            || (args.height_range.or config.height_range).isSome then
          image_matches_dims fsys.probe img (args.width_range.or config.width_range)
            (args.height_range.or config.height_range)
        else true)
        && (match args.score_filters.or config.score_filters with
            | none => true
            | some sf =>
              match args.metadata_path.or config.metadata_path with
              | none => false
              | some mp =>
                match fsys.loadMetas mp with
                | .error _ => false
                | .ok metas =>
                    (applyScoreFilters metas sf).any (fun meta => meta.path == img)))) :=
  process_ok_eq_candidate_filter fsys args config dir out hd hout

/-- C9: every stage of the pipeline only removes elements — any
successful output is an order-preserving subsequence of the
extension-filtered candidate list produced by enumeration. -/
theorem output_sublist_of_candidates (fsys : FileSystem) (args : Cli)
    (config : Configuration) (dir : String) (out : List String)
    (hd : args.directory.or config.root_images_dir = some dir)
    (hout : process_only_images fsys args config = .ok out) :
    out.Sublist (candidate_images fsys dir) := by
  rw [process_ok_eq_candidate_filter fsys args config dir out hd hout]
  exact List.filter_sublist _

/-- C4 counterexample: with two records for path "p" (scores 1 and 5)
and the single filter score ≤ 3, the last-loaded record for "p" fails
the filter, yet "p" is emitted — so the last-loaded record is not the
one that decides the path's fate. -/
theorem duplicate_last_wins_counterexample :
    process_only_images
      { dirExists := fun _ => true
        walk := fun _ => [⟨"p", some ("p.png")⟩]
        probe := fun _ => none
        loadMetas := fun _ => .ok [⟨"p", 1⟩, ⟨"p", 5⟩] }
      ⟨some ("d"), some ("m"), some [⟨ScoreOp.le, 3⟩], none, none⟩
      ⟨none, none, none, none, none⟩ = .ok ["p"]
    ∧ lastMetaFor [⟨"p", 1⟩, ⟨"p", 5⟩] "p" = some ⟨"p", 5⟩
    ∧ image_score_matches ⟨"p", 5⟩ ⟨ScoreOp.le, 3⟩ = false :=
  ⟨rfl, rfl, rfl⟩

/-- C4 amended: duplicate-key resolution is any-wins, not last-wins —
with score filtering active, a path appears in the output iff it
survives dimension filtering and at least one loaded metadata record
for it satisfies every score filter. -/
theorem duplicate_paths_any_record_decides (fsys : FileSystem) (args : Cli)
    (config : Configuration) (dir : String) (sf : List ScoreFilter) (mp : String)
    (metas : List ImageMeta) (out : List String) (img : String)
    (hd : args.directory.or config.root_images_dir = some dir)
    (hs : args.score_filters.or config.score_filters = some sf)
    (hm : args.metadata_path.or config.metadata_path = some mp)
    (hl : fsys.loadMetas mp = .ok metas)
    (hout : process_only_images fsys args config = .ok out) :
    img ∈ out ↔
      img ∈ dim_filtered_images fsys dir (args.width_range.or config.width_range)
          (args.height_range.or config.height_range)
        ∧ ∃ meta ∈ metas, meta.path = img
            ∧ ∀ f ∈ sf, image_score_matches meta f = true := by
  have hshape := process_ok_eq_candidate_filter fsys args config dir out hd hout
  subst hshape
  rw [List.mem_filter, dim_filtered_images_eq_filter, List.mem_filter]
  simp only [hs, hm, hl]
  constructor
  · rintro ⟨hc, hp⟩
    rw [Bool.and_eq_true] at hp
    obtain ⟨hdim, hany⟩ := hp
    refine ⟨⟨hc, hdim⟩, ?_⟩
    rw [List.any_eq_true] at hany
    obtain ⟨meta, hmem, hbeq⟩ := hany
    obtain ⟨hmem', hall⟩ := (mem_applyScoreFilters meta metas sf).mp hmem
    exact ⟨meta, hmem', eq_of_beq hbeq, hall⟩
  · rintro ⟨⟨hc, hdim⟩, meta, hmem, hpath, hall⟩
    refine ⟨hc, ?_⟩
    rw [Bool.and_eq_true]
    refine ⟨hdim, ?_⟩
    rw [List.any_eq_true]
    refine ⟨meta, (mem_applyScoreFilters meta metas sf).mpr ⟨hmem, hall⟩, ?_⟩
    rw [hpath]
    exact beq_self_eq_true img

/-- C8: when the dimension probe fails for an image and at least one
dimension range is active, the image is excluded (the matcher returns
`false`), and the probe can never change whether the run aborts —
the success or failure of `process_only_images` is the same for any
two probe functions. -/
theorem probe_failure_fail_closed (probe : String → Option (Nat × Nat))
    (img : String) (wr hr : Option NumRange)
    (hp : probe img = none)
    (hactive : (wr.isSome || hr.isSome) = true) :
    image_matches_dims probe img wr hr = false
    ∧ ∀ (de : String → Bool) (wa : String → List WalkEntry)
        (lm : String → Except String (List ImageMeta))
        (probe₂ : String → Option (Nat × Nat)) (args : Cli) (config : Configuration),
        (process_only_images ⟨de, wa, probe, lm⟩ args config).isOk
          = (process_only_images ⟨de, wa, probe₂, lm⟩ args config).isOk := by
  constructor
  · cases wr with
    | none =>
      cases hr with
      | none => simp at hactive
      | some r => simp [image_matches_dims, hp]
    | some r => cases hr <;> simp [image_matches_dims, hp]
  · intro de wa lm probe₂ args config
    unfold process_only_images
    repeat' split
    all_goals dsimp only []
    all_goals repeat' split
    all_goals rfl

/-- C10: score filters resolved to an empty list still activate score
filtering — the run fails without a metadata source, and with one it
keeps exactly the dimension-filtered candidates that have some loaded
metadata record (the empty narrowing pass removes no record). -/
theorem empty_score_filters_still_active (fsys : FileSystem) (args : Cli)
    (config : Configuration) (dir : String)
    (hd : args.directory.or config.root_images_dir = some dir)
    (hex : fsys.dirExists dir = true)
    (hs : args.score_filters.or config.score_filters = some []) :
    process_only_images fsys args config =
      (match args.metadata_path.or config.metadata_path with
        | none => .error .missingMetadataSource
        | some mp =>
          match fsys.loadMetas mp with
          | .error e => .error (.metadataLoadFailed e)
          | .ok metas =>
              .ok ((dim_filtered_images fsys dir (args.width_range.or config.width_range)
                (args.height_range.or config.height_range)).filter
                (fun img => metas.any (fun meta => meta.path == img)))) := by
  rw [process_only_images_eq_match fsys args config dir hd hex]
  simp only [hs]
  rfl


/-- Witness for C1: a concrete run with score filters resolved and no
metadata path resolved fails with the missing-metadata-source error. -/
theorem score_filters_require_metadata_source_witness :
    process_only_images
      { dirExists := fun _ => true
        walk := fun _ => []
        probe := fun _ => none
        loadMetas := fun _ => .ok [] }
      ⟨some ("d"), none, some [], none, none⟩ ⟨none, none, none, none, none⟩
      = .error .missingMetadataSource :=
  (score_filters_require_metadata_source
    { dirExists := fun _ => true
      walk := fun _ => []
      probe := fun _ => none
      loadMetas := fun _ => .ok [] }
    ⟨some ("d"), none, some [], none, none⟩ ⟨none, none, none, none, none⟩
    [] rfl rfl).2 ("d") rfl rfl

/-- Witness for C2: in a concrete score-filtered run emitting "p",
some loaded record has path "p". -/
theorem score_filtered_output_has_metadata_witness :
    ∃ meta ∈ [(⟨"p", 7⟩ : ImageMeta)], meta.path = "p" :=
  score_filtered_output_has_metadata
    { dirExists := fun _ => true
      walk := fun _ => [⟨"p", some ("p.png")⟩]
      probe := fun _ => none
      loadMetas := fun _ => .ok [⟨"p", 7⟩] }
    ⟨some ("d"), some ("m"), some [], none, none⟩
    ⟨none, none, none, none, none⟩
    [] ("m") [⟨"p", 7⟩] ["p"] ("p") rfl rfl rfl rfl (by simp)

/-- Witness for the amended C4: on the duplicate-record input, "p" is
emitted exactly because one of its records passes every filter. -/
theorem duplicate_paths_any_record_decides_witness :
    ("p" ∈ (["p"] : List String) ↔
      "p" ∈ dim_filtered_images
          { dirExists := fun _ => true
            walk := fun _ => [⟨"p", some ("p.png")⟩]
            probe := fun _ => none
            loadMetas := fun _ => .ok [⟨"p", 1⟩, ⟨"p", 5⟩] } ("d") none none
        ∧ ∃ meta ∈ [(⟨"p", 1⟩ : ImageMeta), ⟨"p", 5⟩], meta.path = "p"
            ∧ ∀ f ∈ [(⟨ScoreOp.le, 3⟩ : ScoreFilter)],
                image_score_matches meta f = true) :=
  duplicate_paths_any_record_decides
    { dirExists := fun _ => true
      walk := fun _ => [⟨"p", some ("p.png")⟩]
      probe := fun _ => none
      loadMetas := fun _ => .ok [⟨"p", 1⟩, ⟨"p", 5⟩] }
    ⟨some ("d"), some ("m"), some [⟨ScoreOp.le, 3⟩], none, none⟩
    ⟨none, none, none, none, none⟩
    ("d") [⟨ScoreOp.le, 3⟩] ("m") [⟨"p", 1⟩, ⟨"p", 5⟩] ["p"] ("p")
    rfl rfl rfl rfl rfl

/-- Witness for C6: a concrete run with an active width range emits
exactly the filter of its candidate list, in enumeration order. -/
theorem output_in_enumeration_order_witness :
    (["p"] : List String)
      = (candidate_images
          { dirExists := fun _ => true
            walk := fun _ => [⟨"p", some ("p.png")⟩, ⟨"q", some ("q.jpg")⟩]
            probe := fun s => if s == "p" then some (500, 300) else some (100, 100)
            loadMetas := fun _ => .ok [] } ("d")).filter
          (fun img =>
            (if ((some (⟨some 200, some 1000⟩ : NumRange)).isSome
                  || (none : Option NumRange).isSome) then
              image_matches_dims
                (fun s => if s == "p" then some (500, 300) else some (100, 100)) img
                (some ⟨some 200, some 1000⟩) none
            else true)
            && true) :=
  output_in_enumeration_order
    { dirExists := fun _ => true
      walk := fun _ => [⟨"p", some ("p.png")⟩, ⟨"q", some ("q.jpg")⟩]
      probe := fun s => if s == "p" then some (500, 300) else some (100, 100)
      loadMetas := fun _ => .ok [] }
    ⟨some ("d"), none, none, some ⟨some 200, some 1000⟩, none⟩
    ⟨none, none, none, none, none⟩
    ("d") ["p"] rfl rfl

/-- Witness for C8: a failing probe under an active width range
excludes the image, and swapping the probe leaves the run's success
unchanged on a concrete run. -/
theorem probe_failure_fail_closed_witness :
    image_matches_dims (fun _ => none) ("a") (some ⟨some 1, none⟩) none = false
    ∧ (process_only_images
        ⟨fun _ => true, fun _ => [], fun _ => none, fun _ => .ok []⟩
        ⟨some ("d"), none, none, none, none⟩ ⟨none, none, none, none, none⟩).isOk
      = (process_only_images
        ⟨fun _ => true, fun _ => [], fun _ => some (1, 1), fun _ => .ok []⟩
        ⟨some ("d"), none, none, none, none⟩ ⟨none, none, none, none, none⟩).isOk :=
  have h := probe_failure_fail_closed (fun _ => none) ("a") (some ⟨some 1, none⟩) none rfl rfl
  ⟨h.1, h.2 (fun _ => true) (fun _ => []) (fun _ => .ok []) (fun _ => some (1, 1))
    ⟨some ("d"), none, none, none, none⟩ ⟨none, none, none, none, none⟩⟩

/-- Witness for C9: a concrete score-filtered output is a subsequence
of its candidate list. -/
theorem output_sublist_of_candidates_witness :
    List.Sublist (["p"] : List String)
      (candidate_images
        { dirExists := fun _ => true
          walk := fun _ => [⟨"p", some ("p.png")⟩, ⟨"q", some ("q.jpg")⟩]
          probe := fun _ => none
          loadMetas := fun _ => .ok [⟨"p", 7⟩] } ("d")) :=
  output_sublist_of_candidates
    { dirExists := fun _ => true
      walk := fun _ => [⟨"p", some ("p.png")⟩, ⟨"q", some ("q.jpg")⟩]
      probe := fun _ => none
      loadMetas := fun _ => .ok [⟨"p", 7⟩] }
    ⟨some ("d"), some ("m"), some [], none, none⟩ ⟨none, none, none, none, none⟩
    ("d") ["p"] rfl rfl

/-- Witness for C10: with an empty score-filter list, a candidate with
a metadata record ("p") survives and one without ("q") is excluded. -/
theorem empty_score_filters_still_active_witness :
    process_only_images
      { dirExists := fun _ => true
        walk := fun _ => [⟨"p", some ("p.png")⟩, ⟨"q", some ("q.jpg")⟩]
        probe := fun _ => none
        loadMetas := fun _ => .ok [⟨"p", 7⟩] }
      ⟨some ("d"), some ("m"), some [], none, none⟩
      ⟨none, none, none, none, none⟩ = .ok ["p"] :=
  (empty_score_filters_still_active
    { dirExists := fun _ => true
      walk := fun _ => [⟨"p", some ("p.png")⟩, ⟨"q", some ("q.jpg")⟩]
      probe := fun _ => none
      loadMetas := fun _ => .ok [⟨"p", 7⟩] }
    ⟨some ("d"), some ("m"), some [], none, none⟩
    ⟨none, none, none, none, none⟩ ("d") rfl rfl rfl).trans rfl

end Kanumi
